import Mathlib

/-!
# Algernon: server configuration bridge (`conf.go`)

A shallow embedding of `exportServerConf` from `conf.go`: the host functions it
registers in a Lua state (`SetAddr`, `ClearPermissions`, `AddUserPrefix`,
`AddAdminPrefix`, `DenyHandler`, `SetDebug`, `AccessLog`, `ErrorLog`,
`ServerInfo`) and the "permission denied" closure that `DenyHandler` installs.

Conventions of the embedding.

* Go `string` is `String`; Go `int` is `Int`.
* The package-level variables that `conf.go` reads and writes are the fields of
  `State`, under their Go names.
* A host function `func(L *lua.LState) int` is a function of the call's
  argument stack and the state; it gives the new state and the values the
  engine takes as results (the topmost `n` stack values, `n` the returned
  count), or a raised script error.
* A Go function value kept in a variable is represented by the data that
  determines it (`DenyFn`); `invoke` runs it.
* `http.ResponseWriter` values are references (`Nat`) into `State.writers`.
-/

namespace Algernon

/-! ## Lua values (gopher-lua) -/

/-- A Lua function value (`*lua.LFunction`), identified by its reference. -/
structure LFunction where
  ref : Nat
deriving DecidableEq, Repr

/-- A Lua number (`lua.LNumber`, a float64). Floating point is not modelled: a
number is represented by the text `LNumber.String()` gives for it, which is all
`conf.go` can observe of it. -/
structure LuaNumber where
  str : String
deriving DecidableEq, Repr

/-- The values of gopher-lua (`lua.LValue`): nil, booleans, numbers, strings,
functions, userdata, threads, tables and channels. -/
inductive LValue where
  | LNil
  | LBool (b : Bool)
  | LNumber (n : LuaNumber)
  | LString (s : String)
  | Function (f : LFunction)
  | UserData (ref : Nat)
  | Thread (ref : Nat)
  | Table (ref : Nat)
  | Channel (ref : Nat)
deriving DecidableEq, Repr

/-- The text of a script error. -/
abbrev LuaError := String

/-- `L.Get(n)` for `n ≥ 0` on the argument stack of a call: the `n`-th value
(counted from 1), `LNil` when there is none. -/
def Get (stack : List LValue) (n : Nat) : LValue :=
  if n = 0 then LValue.LNil else stack.getD (n - 1) LValue.LNil

/-- `lua.LVAsString`: the text of a string or of a number, `""` otherwise. -/
def LVAsString : LValue → String
  | LValue.LString s => s
  | LValue.LNumber n => n.str
  | _ => ""

/-- `lua.LVAsBool`: false for `nil` and `false`, true for everything else. -/
def LVAsBool : LValue → Bool
  | LValue.LNil => false
  | LValue.LBool false => false
  | _ => true

/-- `L.ToString(n)`: `LVAsString(L.Get(n))`; it never raises. -/
def ToString (stack : List LValue) (n : Nat) : String :=
  LVAsString (Get stack n)

/-- `L.ToBool(n)`: `LVAsBool(L.Get(n))`; it never raises. -/
def ToBool (stack : List LValue) (n : Nat) : Bool :=
  LVAsBool (Get stack n)

/-- `L.ToFunction(n)`: the function at index `n`, the nil pointer (`none`) when
the value there is not a function; it never raises. -/
def ToFunction (stack : List LValue) (n : Nat) : Option LFunction :=
  match Get stack n with
  | LValue.Function f => some f
  | _ => none

/-- `L.Push(v)`: the value goes on top of the stack. -/
def Push (stack : List LValue) (v : LValue) : List LValue :=
  stack ++ [v]

/-- The values the engine takes as the results of a host function that returned
`n`: the topmost `n` values of its stack, in stack order. -/
def results (stack : List LValue) (n : Nat) : List LValue :=
  stack.drop (stack.length - n)

/-- `strconv.Itoa`: the decimal text of an integer, with a leading `-` when it
is negative. -/
def Itoa (i : Int) : String :=
  if i < 0 then "-" ++ Nat.repr i.natAbs else Nat.repr i.toNat

/-! ## State -/

/-- A request (`*http.Request`): its reference and the path of its URL. -/
structure Request where
  ref : Nat
  path : String
deriving DecidableEq, Repr

/-- What has been written to a response writer so far, as the sequence of
writes. -/
abbrev Response := List String

/-- The function values that `conf.go` stores as the deny function of the
permissions object: the library's `permissions.PermissionDenied`, or the closure
created at `conf.go:60`, which is determined by the variables it captures
(`filename` of `exportServerConf` and `luaDenyFunc`, a possibly nil
`*lua.LFunction`; `perm` and `luapool` are the process-wide ones). -/
inductive DenyFn where
  | PermissionDenied
  | closure (filename : String) (luaDenyFunc : Option LFunction)
deriving DecidableEq, Repr

/-- Modelled from the spec: the type `permissions.Permissions` of the library
`permissions2`, which is not part of this repository's sources. The spec's
PermissionRegistry is "adminPrefixes: ordered set of string, userPrefixes:
ordered set of string", and its DenyHandlerSlot is the single process-wide deny
function. -/
structure Permissions where
  adminPathPrefixes : List String
  userPathPrefixes : List String
  denied : DenyFn
deriving DecidableEq, Repr

/-- The process-wide state that `conf.go` reads and writes: the package-level
variables (declared in `conf.go` and elsewhere in package `main`), the
permissions object `perm`, the response writers by reference, and the lines
given to the standard logger. -/
structure State where
  SERVER_DIR : String
  SERVER_ADDR : String
  SERVER_CERT : String
  SERVER_KEY : String
  REDIS_ADDR : String
  REDIS_DB : Int
  SERVER_CONF_SCRIPT : String
  DEBUG_MODE : Bool
  ACCESS_LOG : String
  ERROR_LOG : String
  perm : Permissions
  writers : Nat → Response
  logged : List String

/-- Modelled from the spec: `perm.Clear()` of `permissions2`. "`Clear` empties
both sets"; "resets PermissionRegistry (all paths become public)". -/
def Permissions.Clear (perm : Permissions) : Permissions :=
  { perm with adminPathPrefixes := [], userPathPrefixes := [] }

/-- Modelled from the spec: `perm.AddUserPath(path)` of `permissions2`.
"appends to userPrefixes". -/
def Permissions.AddUserPath (perm : Permissions) (path : String) : Permissions :=
  { perm with userPathPrefixes := perm.userPathPrefixes ++ [path] }

/-- Modelled from the spec: `perm.AddAdminPath(path)` of `permissions2`.
"appends to adminPrefixes". -/
def Permissions.AddAdminPath (perm : Permissions) (path : String) : Permissions :=
  { perm with adminPathPrefixes := perm.adminPathPrefixes ++ [path] }

/-- Modelled from the spec: `perm.SetDenyFunction(f)` of `permissions2`, which
stores `f` in the deny handler slot. -/
def Permissions.SetDenyFunction (perm : Permissions) (f : DenyFn) : Permissions :=
  { perm with denied := f }

/-- Modelled from the spec: `perm.DenyFunction()` of `permissions2`, which
gives the function in the deny handler slot. -/
def Permissions.DenyFunction (perm : Permissions) : DenyFn :=
  perm.denied

/-- The three roles of a request path. -/
inductive Role where
  | admin
  | user
  | public
deriving DecidableEq, Repr

/-- `strings.HasPrefix(s, p)`: whether `s` starts with `p`. Go compares bytes;
on text, which is what a `String` holds, that is the same as comparing
characters, since one UTF-8 text is a byte prefix of another exactly when it is
a character prefix of it. -/
def HasPrefix (s p : String) : Bool :=
  p.data.isPrefixOf s.data

/-- Modelled from the spec: the role decision of the permission-matching
engine (`permissions2`, not part of this repository's sources). "a request path
is `admin` if it starts with any stored admin prefix, else `user` if it starts
with any stored user prefix, else `public`". -/
def role (perm : Permissions) (path : String) : Role :=
  if perm.adminPathPrefixes.any (fun p => HasPrefix path p) then Role.admin
  else if perm.userPathPrefixes.any (fun p => HasPrefix path p) then Role.user
  else Role.public

/-! ## The host functions of `exportServerConf` -/

/-- A host function as the engine calls it: from the argument stack and the
state to the new state and the results, or to a raised script error. -/
abbrev LGFunction := List LValue → State → Except LuaError (State × List LValue)

/-- `SetAddr` (`conf.go:29-32`). -/
def SetAddr : LGFunction := fun L s =>
  let s := { s with SERVER_ADDR := ToString L 1 }
  Except.ok (s, results L 0)

/-- `ClearPermissions` (`conf.go:35-38`). -/
def ClearPermissions : LGFunction := fun L s =>
  let s := { s with perm := s.perm.Clear }
  Except.ok (s, results L 0)

/-- `AddUserPrefix` (`conf.go:42-46`). -/
def AddUserPrefix : LGFunction := fun L s =>
  let path := ToString L 1
  let s := { s with perm := s.perm.AddUserPath path }
  Except.ok (s, results L 0)

/-- `AddAdminPrefix` (`conf.go:50-54`). -/
def AddAdminPrefix : LGFunction := fun L s =>
  let path := ToString L 1
  let s := { s with perm := s.perm.AddAdminPath path }
  Except.ok (s, results L 0)

/-- `DenyHandler` (`conf.go:57-74`): the closure of line 60, over `filename`
and `luaDenyFunc`, becomes the deny function. -/
def DenyHandler (filename : String) : LGFunction := fun L s =>
  let luaDenyFunc := ToFunction L 1
  let s := { s with perm := s.perm.SetDenyFunction (DenyFn.closure filename luaDenyFunc) }
  Except.ok (s, results L 0)

/-- `SetDebug` (`conf.go:77-80`). -/
def SetDebug : LGFunction := fun L s =>
  let s := { s with DEBUG_MODE := ToBool L 1 }
  Except.ok (s, results L 0)

/-- `AccessLog` (`conf.go:83-89`). -/
def AccessLog : LGFunction := fun L s =>
  let filename := ToString L 1
  let s := { s with ACCESS_LOG := filename }
  let L := Push L (LValue.LBool true)
  Except.ok (s, results L 1)

/-- `ErrorLog` (`conf.go:92-98`). -/
def ErrorLog : LGFunction := fun L s =>
  let filename := ToString L 1
  let s := { s with ERROR_LOG := filename }
  let L := Push L (LValue.LBool true)
  Except.ok (s, results L 1)

/-- `ServerInfo` (`conf.go:100-112`). -/
def ServerInfo : LGFunction := fun L st =>
  let s := "Server directory:\t" ++ st.SERVER_DIR ++ "\n"
  let s := s ++ ("Server address:\t\t" ++ st.SERVER_ADDR ++ "\n")
  let s := s ++ ("TLS certificate:\t" ++ st.SERVER_CERT ++ "\n")
  let s := s ++ ("TLS key:\t\t" ++ st.SERVER_KEY ++ "\n")
  let s := s ++ ("Redis address:\t\t" ++ st.REDIS_ADDR ++ "\n")
  let s := s ++ ("Redis database index:\t" ++ Itoa st.REDIS_DB ++ "\n")
  let s := s ++ ("Server configuration:\t" ++ st.SERVER_CONF_SCRIPT ++ "\n")
  let L := Push L (LValue.LString s)
  Except.ok (st, results L 1)

/-- `exportServerConf` (`conf.go:25-113`): the global names it sets in the Lua
state, each with its host function, in the order of the `L.SetGlobal` calls. -/
def exportServerConf (filename : String) : List (String × LGFunction) :=
  [ ("SetAddr", SetAddr),
    ("ClearPermissions", ClearPermissions),
    ("AddUserPrefix", AddUserPrefix),
    ("AddAdminPrefix", AddAdminPrefix),
    ("DenyHandler", DenyHandler filename),
    ("SetDebug", SetDebug),
    ("AccessLog", AccessLog),
    ("ErrorLog", ErrorLog),
    ("ServerInfo", ServerInfo) ]

/-! ## The deny function -/

/-- The parts of the deny path that `conf.go` calls and does not define.

* `PermissionDenied`: the library's default handler
  `permissions.PermissionDenied(w, req)`, as what it does to the response of
  its writer.
* `PCall`: lines 62-65 of the closure, that is the Lua state made by
  `luaStateWithCommonFunctions(w, req, filename, perm, luapool)` with
  `luaDenyFunc` pushed and called by `L.PCall(0, lua.MultRet, nil)`. It gives the
  state the run leaves behind and the error of the call, `none` for Go's `nil`.
  The run may change any part of the state. -/
structure Env where
  PermissionDenied : Request → Response → Response
  PCall : String → Option LFunction → Nat → Request → State → State × Option LuaError

/-- A handler invocation, recorded in the order they happen: a run of the Lua
function of a closure, or a call of `permissions.PermissionDenied`, each with the
writer and request it was given. -/
inductive Call where
  | lua (filename : String) (luaDenyFunc : Option LFunction) (w : Nat) (req : Request)
  | permissionDenied (w : Nat) (req : Request)
deriving DecidableEq, Repr

/-- The state together with the record of the handler invocations so far. The
record is not visible to the handlers. -/
structure World where
  st : State
  calls : List Call

/-- `log.Println(v...)` for the two operands of `conf.go:67`: the operands
separated by a blank, ended by a newline, given to the standard logger (the
time stamp the logger puts in front is not modelled). -/
def logPrintln (a b : String) (s : State) : State :=
  { s with logged := s.logged ++ [a ++ " " ++ b ++ "\n"] }

/-- A call `permissions.PermissionDenied(w, req)`: it writes to `w`. -/
def callPermissionDenied (env : Env) (w : Nat) (req : Request) (x : World) : World :=
  { st := { x.st with
            writers := Function.update x.st.writers w (env.PermissionDenied req (x.st.writers w)) },
    calls := x.calls ++ [Call.permissionDenied w req] }

/-- The measure under which `invoke` terminates: the closure calls the deny
function only right after it has set it to `permissions.PermissionDenied`. -/
def DenyFn.depth : DenyFn → Nat
  | DenyFn.PermissionDenied => 0
  | DenyFn.closure _ _ => 1

/-- A call `f(w, req)` of a deny function `f`. For the closure this is
`conf.go:60-72`. -/
def invoke (env : Env) (f : DenyFn) (w : Nat) (req : Request) (x : World) : World :=
  match f with
  | DenyFn.PermissionDenied => callPermissionDenied env w req x
  | DenyFn.closure filename luaDenyFunc =>
    let r := env.PCall filename luaDenyFunc w req x.st
    let x : World := { st := r.1, calls := x.calls ++ [Call.lua filename luaDenyFunc w req] }
    match r.2 with
    | some err =>
      let x : World := { x with st := logPrintln "Permission denied handler failed:" err x.st }
      let x : World :=
        { x with st := { x.st with perm := x.st.perm.SetDenyFunction DenyFn.PermissionDenied } }
      invoke env x.st.perm.DenyFunction w req x
    | none => x
termination_by f.depth
decreasing_by
  simp [Permissions.DenyFunction, Permissions.SetDenyFunction, logPrintln, DenyFn.depth]

/-- What the server does with a denied request: `perm.DenyFunction()(w, req)`. -/
def dispatch (env : Env) (w : Nat) (req : Request) (x : World) : World :=
  invoke env x.st.perm.DenyFunction w req x

/-- A sequence of denied requests, dispatched one after the other. -/
def serve (env : Env) : List (Nat × Request) → World → World
  | [], x => x
  | (w, req) :: rest, x => serve env rest (dispatch env w req x)

/-! ## Sequences of prefix registrations -/

/-- A registration call of a configuration script: `AddAdminPrefix(path)` or
`AddUserPrefix(path)`, with a string argument. -/
inductive PrefixCall where
  | admin (path : String)
  | user (path : String)
deriving DecidableEq, Repr

/-- The string argument of a registration call. -/
def PrefixCall.path : PrefixCall → String
  | PrefixCall.admin p => p
  | PrefixCall.user p => p

/-- Whether a registration call is `AddAdminPrefix`. -/
def PrefixCall.isAdmin : PrefixCall → Bool
  | PrefixCall.admin _ => true
  | PrefixCall.user _ => false

/-- The host function call that a registration call stands for. -/
def PrefixCall.run : PrefixCall → State → Except LuaError (State × List LValue)
  | PrefixCall.admin p, s => AddAdminPrefix [LValue.LString p] s
  | PrefixCall.user p, s => AddUserPrefix [LValue.LString p] s

/-- A sequence of registration calls, run in order; a raised error ends the
run. -/
def addPrefixes : List PrefixCall → State → Except LuaError State
  | [], s => Except.ok s
  | c :: cs, s =>
    match c.run s with
    | Except.ok (s, _) => addPrefixes cs s
    | Except.error e => Except.error e

/-- A state for concrete evaluations: the server as configured for a local
test run, nothing written or logged, the library's default deny function. -/
def exampleState : State :=
  { SERVER_DIR := "/srv/www",
    SERVER_ADDR := ":3000",
    SERVER_CERT := "cert.pem",
    SERVER_KEY := "key.pem",
    REDIS_ADDR := ":6379",
    REDIS_DB := 0,
    SERVER_CONF_SCRIPT := "server.lua",
    DEBUG_MODE := false,
    ACCESS_LOG := "",
    ERROR_LOG := "",
    perm := { adminPathPrefixes := ["/admin"], userPathPrefixes := ["/data"],
              denied := DenyFn.PermissionDenied },
    writers := fun _ => [],
    logged := [] }

/-- An environment for concrete evaluations. The default handler writes a 403
response. The Lua function with reference 0 writes a fragment and then fails,
every other Lua function writes a page and succeeds, and calling the nil
function fails. -/
def exampleEnv : Env :=
  { PermissionDenied := fun _ r => r ++ ["403 Permission denied.\n"],
    PCall := fun _ luaDenyFunc w _ s =>
      match luaDenyFunc with
      | none => (s, some "attempt to call a non-function object")
      | some f =>
        if f.ref = 0 then
          ({ s with writers := Function.update s.writers w (s.writers w ++ ["<html>"]) },
            some "attempt to index a nil value")
        else
          ({ s with writers := Function.update s.writers w (s.writers w ++ ["Go away.\n"]) },
            none) }

/-- A world for concrete evaluations: `exampleState` after a configuration
script has called `DenyHandler` with the Lua function of the given reference;
no handler has been invoked yet. -/
def exampleWorld (ref : Nat) : World :=
  { st := { exampleState with
            perm := exampleState.perm.SetDenyFunction
              (DenyFn.closure "server.lua" (some { ref := ref })) },
    calls := [] }

/-- An environment for concrete evaluations in which a handler's script calls
`DenyHandler` itself. The Lua function with reference 1 writes a page, calls
`DenyHandler` with the Lua function 0 and succeeds; every other call is as in
`exampleEnv`, where the Lua function 0 writes a fragment and fails. -/
def reinstallingEnv : Env :=
  { PermissionDenied := exampleEnv.PermissionDenied,
    PCall := fun filename luaDenyFunc w req s =>
      if luaDenyFunc = some { ref := 1 } then
        match DenyHandler filename [LValue.Function { ref := 0 }]
            { s with writers := Function.update s.writers w (s.writers w ++ ["Go away.\n"]) } with
        | Except.ok (s, _) => (s, none)
        | Except.error e => (s, some e)
      else exampleEnv.PCall filename luaDenyFunc w req s }

/-! ## Basic facts about the stack operations -/

theorem results_zero (L : List LValue) : results L 0 = [] := by
  simp [results]

theorem results_push_one (L : List LValue) (v : LValue) : results (Push L v) 1 = [v] := by
  simp [results, Push]

theorem ToString_string (s : String) (rest : List LValue) :
    ToString (LValue.LString s :: rest) 1 = s := rfl

theorem ToBool_bool (b : Bool) (rest : List LValue) :
    ToBool (LValue.LBool b :: rest) 1 = b := by
  cases b <;> rfl

theorem ToFunction_function (f : LFunction) (rest : List LValue) :
    ToFunction (LValue.Function f :: rest) 1 = some f := rfl

/-! ## `ServerInfo` -/

/-- C1: for every runtime configuration (and whatever arguments the call is
given) `ServerInfo` leaves the state as it is and returns exactly one result,
the string made of the seven labelled lines in the fixed order: directory,
address, certificate path, key path, store address, store index in decimal,
script path. The string is given both as the concatenation of the claim and as
the join of its seven lines, each a label, a value and a newline. -/
theorem ServerInfo_returns_labelled_lines (L : List LValue) (st : State) :
    ServerInfo L st = Except.ok (st, [LValue.LString
      ("Server directory:\t" ++ st.SERVER_DIR ++ "\n"
        ++ "Server address:\t\t" ++ st.SERVER_ADDR ++ "\n"
        ++ "TLS certificate:\t" ++ st.SERVER_CERT ++ "\n"
        ++ "TLS key:\t\t" ++ st.SERVER_KEY ++ "\n"
        ++ "Redis address:\t\t" ++ st.REDIS_ADDR ++ "\n"
        ++ "Redis database index:\t" ++ Itoa st.REDIS_DB ++ "\n"
        ++ "Server configuration:\t" ++ st.SERVER_CONF_SCRIPT ++ "\n")])
    ∧ ServerInfo L st = Except.ok (st, [LValue.LString (String.join
      [ "Server directory:\t" ++ st.SERVER_DIR ++ "\n",
        "Server address:\t\t" ++ st.SERVER_ADDR ++ "\n",
        "TLS certificate:\t" ++ st.SERVER_CERT ++ "\n",
        "TLS key:\t\t" ++ st.SERVER_KEY ++ "\n",
        "Redis address:\t\t" ++ st.REDIS_ADDR ++ "\n",
        "Redis database index:\t" ++ Itoa st.REDIS_DB ++ "\n",
        "Server configuration:\t" ++ st.SERVER_CONF_SCRIPT ++ "\n" ])]) := by
  constructor
  · simp only [ServerInfo, results_push_one, String.append_assoc]
  · simp only [ServerInfo, results_push_one, String.join, List.foldl, String.append_assoc,
      String.empty_append]

/-! ## `AccessLog` and `ErrorLog` -/

/-- C6: for every string `p` (an unwritable path and the empty string
included; further arguments are ignored) `AccessLog(p)` sets the access-log path
to `p` and returns exactly one result, `true`, and `ErrorLog(p)` sets the
error-log path to `p` and returns exactly one result, `true`. -/
theorem AccessLog_ErrorLog_return_true (p : String) (rest : List LValue) (st : State) :
    AccessLog (LValue.LString p :: rest) st
        = Except.ok ({ st with ACCESS_LOG := p }, [LValue.LBool true])
    ∧ ErrorLog (LValue.LString p :: rest) st
        = Except.ok ({ st with ERROR_LOG := p }, [LValue.LBool true]) := by
  constructor
  · simp only [AccessLog, results_push_one, ToString_string]
  · simp only [ErrorLog, results_push_one, ToString_string]

/-! ## `SetAddr` and `SetDebug` -/

/-- C9: for every string `s`, boolean `b` and state, `SetAddr(s)` sets the bind
address to `s` and `SetDebug(b)` sets the debug flag to `b`; each returns no
result and leaves every other field of the state as it was, in particular both
prefix lists and the deny function. -/
theorem SetAddr_SetDebug_frame (s : String) (b : Bool) (rest : List LValue) (st : State) :
    SetAddr (LValue.LString s :: rest) st = Except.ok ({ st with SERVER_ADDR := s }, [])
    ∧ SetDebug (LValue.LBool b :: rest) st = Except.ok ({ st with DEBUG_MODE := b }, [])
    ∧ ({ st with SERVER_ADDR := s } : State).perm = st.perm
    ∧ ({ st with DEBUG_MODE := b } : State).perm = st.perm
    ∧ ({ st with SERVER_ADDR := s } : State).DEBUG_MODE = st.DEBUG_MODE
    ∧ ({ st with DEBUG_MODE := b } : State).SERVER_ADDR = st.SERVER_ADDR := by
  refine ⟨?_, ?_, rfl, rfl, rfl, rfl⟩
  · simp only [SetAddr, results_zero, ToString_string]
  · simp only [SetDebug, results_zero, ToBool_bool]

/-! ## The permission registry -/

theorem role_of_no_prefixes (perm : Permissions) (path : String)
    (ha : perm.adminPathPrefixes = []) (hu : perm.userPathPrefixes = []) :
    role perm path = Role.public := by
  simp [role, ha, hu]

/-- C7: from every state, `ClearPermissions()` returns no result and leaves
both prefix lists empty, so that every path is public; a second
`ClearPermissions()` gives the same state again. -/
theorem ClearPermissions_all_public (L L2 : List LValue) (st : State) :
    ∃ st1 : State, ClearPermissions L st = Except.ok (st1, [])
      ∧ st1.perm.adminPathPrefixes = []
      ∧ st1.perm.userPathPrefixes = []
      ∧ (∀ P : String, role st1.perm P = Role.public)
      ∧ ClearPermissions L2 st1 = Except.ok (st1, []) := by
  refine ⟨{ st with perm := st.perm.Clear }, ?_, rfl, rfl, ?_, ?_⟩
  · simp only [ClearPermissions, results_zero]
  · intro P
    exact role_of_no_prefixes _ P rfl rfl
  · simp only [ClearPermissions, results_zero]
    rfl

theorem addPrefixes_ok (cs : List PrefixCall) (s : State) :
    addPrefixes cs s = Except.ok
      { s with perm :=
          { s.perm with
            adminPathPrefixes :=
              s.perm.adminPathPrefixes ++ (cs.filter (fun c => c.isAdmin)).map PrefixCall.path,
            userPathPrefixes :=
              s.perm.userPathPrefixes ++ (cs.filter (fun c => !c.isAdmin)).map PrefixCall.path } } := by
  induction cs generalizing s with
  | nil => simp [addPrefixes]
  | cons c cs ih =>
    cases c with
    | admin p =>
      simp [addPrefixes, PrefixCall.run, AddAdminPrefix, ToString_string, results_zero, ih,
        Permissions.AddAdminPath, PrefixCall.isAdmin, PrefixCall.path]
    | user p =>
      simp [addPrefixes, PrefixCall.run, AddUserPrefix, ToString_string, results_zero, ih,
        Permissions.AddUserPath, PrefixCall.isAdmin, PrefixCall.path]

theorem any_registered (cs : List PrefixCall) (q : PrefixCall → Bool) (P : String) :
    (((cs.filter q).map PrefixCall.path).any (fun p => HasPrefix P p) = true)
      ↔ ∃ c ∈ cs, q c = true ∧ HasPrefix P c.path = true := by
  simp only [List.any_eq_true, List.mem_map, List.mem_filter]
  constructor
  · rintro ⟨p, ⟨c, ⟨hc, hq⟩, rfl⟩, hp⟩
    exact ⟨c, hc, hq, hp⟩
  · rintro ⟨c, hc, hq, hp⟩
    exact ⟨c.path, ⟨c, ⟨hc, hq⟩, rfl⟩, hp⟩

/-- C8: after `ClearPermissions()` and any sequence of `AddAdminPrefix` and
`AddUserPrefix` calls, every path `P` is admin if it starts with an added admin
prefix, else user if it starts with an added user prefix, else public. Admin
wins when `/x` is added as both (from any state), and after
`ClearPermissions(); AddUserPrefix("/x")` the path `/x/y` is user and `/z` is
public. -/
theorem role_after_registrations (cs : List PrefixCall) (L : List LValue) (st : State)
    (P : String) :
    (∃ st0 st1 : State, ClearPermissions L st = Except.ok (st0, [])
      ∧ addPrefixes cs st0 = Except.ok st1
      ∧ role st1.perm P =
          (if ∃ c ∈ cs, c.isAdmin = true ∧ HasPrefix P c.path = true then Role.admin
           else if ∃ c ∈ cs, c.isAdmin = false ∧ HasPrefix P c.path = true then Role.user
           else Role.public))
    ∧ (∃ st1 st2 : State, AddAdminPrefix [LValue.LString "/x"] st = Except.ok (st1, [])
      ∧ AddUserPrefix [LValue.LString "/x"] st1 = Except.ok (st2, [])
      ∧ role st2.perm "/x" = Role.admin)
    ∧ (∃ st1 st2 : State, AddUserPrefix [LValue.LString "/x"] st = Except.ok (st1, [])
      ∧ AddAdminPrefix [LValue.LString "/x"] st1 = Except.ok (st2, [])
      ∧ role st2.perm "/x" = Role.admin)
    ∧ (∃ st0 st1 : State, ClearPermissions L st = Except.ok (st0, [])
      ∧ AddUserPrefix [LValue.LString "/x"] st0 = Except.ok (st1, [])
      ∧ role st1.perm "/x/y" = Role.user
      ∧ role st1.perm "/z" = Role.public) := by
  have hxx : HasPrefix "/x" "/x" = true := by decide
  have hxy : HasPrefix "/x/y" "/x" = true := by decide
  have hz : HasPrefix "/z" "/x" = false := by decide
  refine ⟨⟨{ st with perm := st.perm.Clear }, _, ?_, addPrefixes_ok cs _, ?_⟩,
    ⟨_, _, rfl, rfl, ?_⟩, ⟨_, _, rfl, rfl, ?_⟩, ⟨{ st with perm := st.perm.Clear }, _, ?_, rfl, ?_, ?_⟩⟩
  · simp only [ClearPermissions, results_zero]
  · have hA := any_registered cs (fun c => c.isAdmin) P
    have hU := any_registered cs (fun c => !c.isAdmin) P
    simp only [Bool.not_eq_true'] at hU
    simp only [role, Permissions.Clear, List.nil_append]
    by_cases h1 : ∃ c ∈ cs, c.isAdmin = true ∧ HasPrefix P c.path = true
    · rw [if_pos h1, if_pos (hA.mpr h1)]
    · rw [if_neg h1, if_neg (fun h => h1 (hA.mp h))]
      by_cases h2 : ∃ c ∈ cs, c.isAdmin = false ∧ HasPrefix P c.path = true
      · rw [if_pos h2, if_pos (hU.mpr h2)]
      · rw [if_neg h2, if_neg (fun h => h2 (hU.mp h))]
  · simp [role, Permissions.AddAdminPath, Permissions.AddUserPath, ToString_string, hxx]
  · simp [role, Permissions.AddAdminPath, Permissions.AddUserPath, ToString_string, hxx]
  · simp only [ClearPermissions, results_zero]
  · simp [role, Permissions.Clear, Permissions.AddUserPath, ToString_string, hxy]
  · simp [role, Permissions.Clear, Permissions.AddUserPath, ToString_string, hz]

/-! ## Arguments of the wrong type -/

/-- C5, as stated, fails: called without an argument, `SetAddr` raises no
script error; the call completes, returns no result and has set the address to
the empty string. Likewise `SetDebug("no")` completes and turns debug mode on,
`AccessLog` given a table completes with `true` and an empty path, and
`DenyHandler(true)` completes and installs a closure over a nil function. -/
theorem wrong_argument_calls_complete :
    SetAddr [] exampleState = Except.ok ({ exampleState with SERVER_ADDR := "" }, [])
    ∧ (¬ ∃ e : LuaError, SetAddr [] exampleState = Except.error e)
    ∧ SetDebug [LValue.LString "no"] exampleState
        = Except.ok ({ exampleState with DEBUG_MODE := true }, [])
    ∧ AccessLog [LValue.Table 0] exampleState
        = Except.ok ({ exampleState with ACCESS_LOG := "" }, [LValue.LBool true])
    ∧ DenyHandler "server.lua" [LValue.LBool true] exampleState
        = Except.ok ({ exampleState with
            perm := exampleState.perm.SetDenyFunction (DenyFn.closure "server.lua" none) }, []) := by
  refine ⟨rfl, ?_, rfl, rfl, rfl⟩
  rintro ⟨e, he⟩
  exact Except.noConfusion he

/-- C5, amended: no host function of `exportServerConf` fails on an argument of
the wrong type or on a missing argument. For every argument stack the call
completes, with the effect and the results of a well-typed call on the coerced
argument: `L.ToString(1)` is the text of a string or number and the empty string
for anything else or nothing, `L.ToBool(1)` is false for `nil`, `false` or
nothing and true for anything else, `L.ToFunction(1)` is the nil function for
anything that is not a function. -/
theorem bridge_calls_coerce_arguments (filename : String) (L : List LValue) (st : State) :
    SetAddr L st = Except.ok ({ st with SERVER_ADDR := LVAsString (Get L 1) }, [])
    ∧ AddUserPrefix L st
        = Except.ok ({ st with perm := st.perm.AddUserPath (LVAsString (Get L 1)) }, [])
    ∧ AddAdminPrefix L st
        = Except.ok ({ st with perm := st.perm.AddAdminPath (LVAsString (Get L 1)) }, [])
    ∧ DenyHandler filename L st
        = Except.ok ({ st with
            perm := st.perm.SetDenyFunction (DenyFn.closure filename (ToFunction L 1)) }, [])
    ∧ SetDebug L st = Except.ok ({ st with DEBUG_MODE := LVAsBool (Get L 1) }, [])
    ∧ AccessLog L st
        = Except.ok ({ st with ACCESS_LOG := LVAsString (Get L 1) }, [LValue.LBool true])
    ∧ ErrorLog L st
        = Except.ok ({ st with ERROR_LOG := LVAsString (Get L 1) }, [LValue.LBool true])
    ∧ (∀ p ∈ exportServerConf filename, ∃ r, p.2 L st = Except.ok r)
    ∧ Get [] 1 = LValue.LNil
    ∧ (∀ v : LValue, (∀ s, v ≠ LValue.LString s) → (∀ n, v ≠ LValue.LNumber n) →
        LVAsString v = "")
    ∧ (∀ v : LValue, LVAsBool v = false ↔ (v = LValue.LNil ∨ v = LValue.LBool false))
    ∧ (∀ v : LValue, (∀ f, v ≠ LValue.Function f) → ToFunction (v :: L) 1 = none) := by
  refine ⟨?_, ?_, ?_, ?_, ?_, ?_, ?_, ?_, rfl, ?_, ?_, ?_⟩
  · simp only [SetAddr, results_zero, ToString]
  · simp only [AddUserPrefix, results_zero, ToString]
  · simp only [AddAdminPrefix, results_zero, ToString]
  · simp only [DenyHandler, results_zero]
  · simp only [SetDebug, results_zero, ToBool]
  · simp only [AccessLog, results_push_one, ToString]
  · simp only [ErrorLog, results_push_one, ToString]
  · intro p hp
    simp only [exportServerConf, List.mem_cons, List.mem_singleton, List.not_mem_nil,
      or_false] at hp
    rcases hp with h | h | h | h | h | h | h | h | h <;> subst h <;> exact ⟨_, rfl⟩
  · intro v hs hn
    cases v <;> first | rfl | exact absurd rfl (hs _) | exact absurd rfl (hn _)
  · intro v
    cases v with
    | LBool b => cases b <;> simp [LVAsBool]
    | _ => simp [LVAsBool]
  · intro v hf
    cases v <;> first | rfl | exact absurd rfl (hf _)

/-! ## The deny function: one call -/

theorem invoke_PermissionDenied (env : Env) (w : Nat) (req : Request) (x : World) :
    invoke env DenyFn.PermissionDenied w req x = callPermissionDenied env w req x := by
  rw [invoke]

theorem invoke_closure_ok (env : Env) (filename : String) (lf : Option LFunction) (w : Nat)
    (req : Request) (x : World) (h : (env.PCall filename lf w req x.st).2 = none) :
    invoke env (DenyFn.closure filename lf) w req x
      = { st := (env.PCall filename lf w req x.st).1,
          calls := x.calls ++ [Call.lua filename lf w req] } := by
  rw [invoke]
  simp only [h]

theorem invoke_closure_err (env : Env) (filename : String) (lf : Option LFunction) (w : Nat)
    (req : Request) (x : World) (err : LuaError)
    (h : (env.PCall filename lf w req x.st).2 = some err) :
    invoke env (DenyFn.closure filename lf) w req x
      = callPermissionDenied env w req
          { st := { logPrintln "Permission denied handler failed:" err
                      (env.PCall filename lf w req x.st).1 with
                    perm := (env.PCall filename lf w req x.st).1.perm.SetDenyFunction
                      DenyFn.PermissionDenied },
            calls := x.calls ++ [Call.lua filename lf w req] } := by
  rw [invoke]
  simp only [h, Permissions.DenyFunction, Permissions.SetDenyFunction, logPrintln]
  rw [invoke_PermissionDenied]

theorem dispatch_default (env : Env) (w : Nat) (req : Request) (x : World)
    (h : x.st.perm.DenyFunction = DenyFn.PermissionDenied) :
    dispatch env w req x = callPermissionDenied env w req x := by
  rw [dispatch, h, invoke_PermissionDenied]

theorem callPermissionDenied_slot (env : Env) (w : Nat) (req : Request) (x : World) :
    (callPermissionDenied env w req x).st.perm = x.st.perm := rfl

theorem serve_append (env : Env) (xs ys : List (Nat × Request)) (x : World) :
    serve env (xs ++ ys) x = serve env ys (serve env xs x) := by
  induction xs generalizing x with
  | nil => rfl
  | cons p xs ih =>
    obtain ⟨w, req⟩ := p
    exact ih (dispatch env w req x)

theorem serve_default (env : Env) (reqs : List (Nat × Request)) (x : World)
    (h : x.st.perm.DenyFunction = DenyFn.PermissionDenied) :
    (serve env reqs x).st.perm.DenyFunction = DenyFn.PermissionDenied
    ∧ (serve env reqs x).calls
        = x.calls ++ reqs.map (fun p => Call.permissionDenied p.1 p.2) := by
  induction reqs generalizing x with
  | nil => simp [serve, h]
  | cons p reqs ih =>
    obtain ⟨w, req⟩ := p
    have hd := dispatch_default env w req x h
    have h1 : (dispatch env w req x).st.perm.DenyFunction = DenyFn.PermissionDenied := by
      rw [hd, callPermissionDenied_slot]; exact h
    obtain ⟨ih1, ih2⟩ := ih (dispatch env w req x) h1
    refine ⟨ih1, ?_⟩
    have hc : (dispatch env w req x).calls = x.calls ++ [Call.permissionDenied w req] := by
      rw [hd]; rfl
    show (serve env reqs (dispatch env w req x)).calls = _
    rw [ih2, hc, List.map_cons, List.append_assoc, List.singleton_append]

theorem dispatch_custom (env : Env) (filename : String) (f : LFunction)
    (hok : ∀ w req s, (env.PCall filename (some f) w req s).2 = none)
    (w : Nat) (req : Request) (x : World)
    (h : x.st.perm.DenyFunction = DenyFn.closure filename (some f)) :
    dispatch env w req x
      = { st := (env.PCall filename (some f) w req x.st).1,
          calls := x.calls ++ [Call.lua filename (some f) w req] } := by
  rw [dispatch, h]
  exact invoke_closure_ok env filename (some f) w req x (hok w req x.st)

theorem serve_custom (env : Env) (filename : String) (f : LFunction)
    (hok : ∀ w req s, (env.PCall filename (some f) w req s).2 = none)
    (hkeep : ∀ w req s, s.perm.DenyFunction = DenyFn.closure filename (some f) →
      (env.PCall filename (some f) w req s).1.perm.DenyFunction
        = DenyFn.closure filename (some f))
    (reqs : List (Nat × Request)) (x : World)
    (h : x.st.perm.DenyFunction = DenyFn.closure filename (some f)) :
    (serve env reqs x).st.perm.DenyFunction = DenyFn.closure filename (some f)
    ∧ (serve env reqs x).calls
        = x.calls ++ reqs.map (fun p => Call.lua filename (some f) p.1 p.2) := by
  induction reqs generalizing x with
  | nil => simp [serve, h]
  | cons p reqs ih =>
    obtain ⟨w, req⟩ := p
    have hd := dispatch_custom env filename f hok w req x h
    have h1 : (dispatch env w req x).st.perm.DenyFunction
        = DenyFn.closure filename (some f) := by
      rw [hd]; exact hkeep w req x.st h
    obtain ⟨ih1, ih2⟩ := ih (dispatch env w req x) h1
    refine ⟨ih1, ?_⟩
    have hc : (dispatch env w req x).calls = x.calls ++ [Call.lua filename (some f) w req] := by
      rw [hd]
    show (serve env reqs (dispatch env w req x)).calls = _
    rw [ih2, hc, List.map_cons, List.append_assoc, List.singleton_append]

/-! ## The deny function: failure of the custom handler -/

theorem dispatch_closure_err (env : Env) (filename : String) (lf : Option LFunction)
    (w : Nat) (req : Request) (x : World) (err : LuaError)
    (hactive : x.st.perm.DenyFunction = DenyFn.closure filename lf)
    (hfail : (env.PCall filename lf w req x.st).2 = some err) :
    dispatch env w req x
      = callPermissionDenied env w req
          { st := { logPrintln "Permission denied handler failed:" err
                      (env.PCall filename lf w req x.st).1 with
                    perm := (env.PCall filename lf w req x.st).1.perm.SetDenyFunction
                      DenyFn.PermissionDenied },
            calls := x.calls ++ [Call.lua filename lf w req] } := by
  rw [dispatch, hactive]
  exact invoke_closure_err env filename lf w req x err hfail

/-- C3: a denied request dispatched while a closure over a Lua function is the
deny function, and whose Lua call fails with `err`. The dispatch returns (with
the world `y`); the handlers it invoked are the Lua function and then the
default handler, the latter exactly once and on the writer and request of this
dispatch; the writer of the request holds what the default handler makes of it
after the failed run, so the default denial response alone when the failed run
wrote nothing; the other writers are as the run left them; one line is logged;
and the deny function is the default handler afterwards. -/
theorem failed_custom_invocation_gets_default (env : Env) (filename : String)
    (lf : Option LFunction) (w : Nat) (req : Request) (x : World) (err : LuaError)
    (hactive : x.st.perm.DenyFunction = DenyFn.closure filename lf)
    (hfail : (env.PCall filename lf w req x.st).2 = some err) :
    ∃ (y : World) (s1 : State), dispatch env w req x = y
      ∧ s1 = (env.PCall filename lf w req x.st).1
      ∧ y.calls = x.calls ++ [Call.lua filename lf w req, Call.permissionDenied w req]
      ∧ (y.calls.drop x.calls.length).count (Call.permissionDenied w req) = 1
      ∧ (∀ w2 req2, Call.permissionDenied w2 req2 ∈ y.calls.drop x.calls.length →
          w2 = w ∧ req2 = req)
      ∧ y.st.writers w = env.PermissionDenied req (s1.writers w)
      ∧ (s1.writers w = x.st.writers w →
          y.st.writers w = env.PermissionDenied req (x.st.writers w))
      ∧ (∀ w2, w2 ≠ w → y.st.writers w2 = s1.writers w2)
      ∧ y.st.logged = s1.logged ++ ["Permission denied handler failed: " ++ err ++ "\n"]
      ∧ y.st.perm.DenyFunction = DenyFn.PermissionDenied := by
  refine ⟨_, _, dispatch_closure_err env filename lf w req x err hactive hfail, rfl,
    ?_, ?_, ?_, ?_, ?_, ?_, ?_, ?_⟩
  · simp [callPermissionDenied]
  · simp [callPermissionDenied]
  · intro w2 req2 h
    simpa [callPermissionDenied] using h
  · simp [callPermissionDenied, logPrintln]
  · intro h
    simp [callPermissionDenied, logPrintln, h]
  · intro w2 h2
    simp [callPermissionDenied, logPrintln, Function.update_noteq h2]
  · simp [callPermissionDenied, logPrintln]
  · simp [callPermissionDenied, Permissions.DenyFunction, Permissions.SetDenyFunction]

/-- Witness of C3's theorem: the Lua function 0 of `exampleEnv` writes a
fragment and fails; the request on writer 7 then gets the default response
after the fragment, and the default handler is the deny function afterwards. -/
theorem failed_custom_invocation_gets_default_witness :
    (exampleWorld 0).st.perm.DenyFunction = DenyFn.closure "server.lua" (some { ref := 0 })
    ∧ (exampleEnv.PCall "server.lua" (some { ref := 0 }) 7 { ref := 1, path := "/admin/x" }
          (exampleWorld 0).st).2 = some "attempt to index a nil value"
    ∧ (dispatch exampleEnv 7 { ref := 1, path := "/admin/x" } (exampleWorld 0)).st.writers 7
        = ["<html>", "403 Permission denied.\n"]
    ∧ (dispatch exampleEnv 7 { ref := 1, path := "/admin/x" } (exampleWorld 0)).st.perm.DenyFunction
        = DenyFn.PermissionDenied := by
  obtain ⟨y, s1, hy, hs1, -, -, -, hw, -, -, -, hslot⟩ :=
    failed_custom_invocation_gets_default exampleEnv "server.lua" (some { ref := 0 }) 7
      { ref := 1, path := "/admin/x" } (exampleWorld 0) "attempt to index a nil value" rfl rfl
  refine ⟨rfl, rfl, ?_, ?_⟩
  · rw [hy, hw, hs1]
    simp [exampleEnv, exampleWorld, exampleState]
  · rw [hy, hslot]

/-! ## The deny function: sequences of denied requests -/

/-- C2: `DenyHandler(f)` with a Lua function `f` whose call always fails, then
a first denied request `(w, req)`, any sequence `later` of further denied
requests, and one more `(w2, req2)`. The first request runs `f`, falls back and
gets the default handler's response on its writer; from then on the deny
function is the default handler, each further request is answered by the
default handler alone, and over the whole sequence `f` is invoked once, by the
first request. -/
theorem failing_handler_fallback_is_permanent (env : Env) (filename : String) (f : LFunction)
    (rest : List LValue) (st : State) (calls0 : List Call) (w : Nat) (req : Request)
    (later : List (Nat × Request)) (w2 : Nat) (req2 : Request)
    (hfail : ∀ w req s, (env.PCall filename (some f) w req s).2 ≠ none) :
    ∃ (st1 : State) (x1 x2 x3 : World),
      DenyHandler filename (LValue.Function f :: rest) st = Except.ok (st1, [])
      ∧ st1.perm.DenyFunction = DenyFn.closure filename (some f)
      ∧ x1 = dispatch env w req { st := st1, calls := calls0 }
      ∧ x2 = serve env later x1
      ∧ x3 = dispatch env w2 req2 x2
      ∧ x1.calls = calls0 ++ [Call.lua filename (some f) w req, Call.permissionDenied w req]
      ∧ x1.st.writers w
          = env.PermissionDenied req ((env.PCall filename (some f) w req st1).1.writers w)
      ∧ x1.st.perm.DenyFunction = DenyFn.PermissionDenied
      ∧ x2.st.perm.DenyFunction = DenyFn.PermissionDenied
      ∧ x3 = callPermissionDenied env w2 req2 x2
      ∧ x3.st.writers w2 = env.PermissionDenied req2 (x2.st.writers w2)
      ∧ x3.st.perm.DenyFunction = DenyFn.PermissionDenied
      ∧ x3.calls = calls0 ++ [Call.lua filename (some f) w req, Call.permissionDenied w req]
          ++ later.map (fun p => Call.permissionDenied p.1 p.2)
          ++ [Call.permissionDenied w2 req2]
      ∧ serve env ((w, req) :: later ++ [(w2, req2)]) { st := st1, calls := calls0 } = x3 := by
  have hst : DenyHandler filename (LValue.Function f :: rest) st
      = Except.ok ({ st with perm := st.perm.SetDenyFunction (DenyFn.closure filename (some f)) },
          []) := by
    simp only [DenyHandler, results_zero, ToFunction_function]
  cases hp : (env.PCall filename (some f) w req
      { st with perm := st.perm.SetDenyFunction (DenyFn.closure filename (some f)) }).2 with
  | none => exact absurd hp (hfail _ _ _)
  | some err =>
    have hy := dispatch_closure_err env filename (some f) w req
      { st := { st with perm := st.perm.SetDenyFunction (DenyFn.closure filename (some f)) },
        calls := calls0 } err rfl hp
    have hcalls : (dispatch env w req
        { st := { st with perm := st.perm.SetDenyFunction (DenyFn.closure filename (some f)) },
          calls := calls0 }).calls
        = calls0 ++ [Call.lua filename (some f) w req, Call.permissionDenied w req] := by
      rw [hy]
      simp [callPermissionDenied]
    have hslot : (dispatch env w req
        { st := { st with perm := st.perm.SetDenyFunction (DenyFn.closure filename (some f)) },
          calls := calls0 }).st.perm.DenyFunction = DenyFn.PermissionDenied := by
      rw [hy]
      simp [callPermissionDenied, Permissions.DenyFunction, Permissions.SetDenyFunction]
    obtain ⟨h2slot, h2calls⟩ := serve_default env later _ hslot
    have h3 := dispatch_default env w2 req2 _ h2slot
    refine ⟨_, _, _, _, hst, rfl, rfl, rfl, rfl, hcalls, ?_, hslot, h2slot, h3, ?_, ?_, ?_, ?_⟩
    · rw [hy]
      simp [callPermissionDenied, logPrintln]
    · rw [h3]
      simp [callPermissionDenied]
    · rw [h3, callPermissionDenied_slot]
      exact h2slot
    · rw [h3]
      simp only [callPermissionDenied, h2calls, hcalls]
    · show serve env (later ++ [(w2, req2)]) (dispatch env w req _) = _
      rw [serve_append]
      rfl

/-- Witness of C2's theorem: the Lua function 0 of `exampleEnv` always fails.
After `DenyHandler` installs it, a first request on writer 7 and a second one on
writer 8: the first gets the fragment and the default response, the second the
default response alone. -/
theorem failing_handler_fallback_is_permanent_witness :
    (∀ (w : Nat) (req : Request) (s : State),
        (exampleEnv.PCall "server.lua" (some { ref := 0 }) w req s).2 ≠ none)
    ∧ (serve exampleEnv [(7, { ref := 1, path := "/admin/x" }), (8, { ref := 2, path := "/admin/y" })]
        (exampleWorld 0)).calls
        = [Call.lua "server.lua" (some { ref := 0 }) 7 { ref := 1, path := "/admin/x" },
           Call.permissionDenied 7 { ref := 1, path := "/admin/x" },
           Call.permissionDenied 8 { ref := 2, path := "/admin/y" }]
    ∧ (serve exampleEnv [(7, { ref := 1, path := "/admin/x" }), (8, { ref := 2, path := "/admin/y" })]
        (exampleWorld 0)).st.perm.DenyFunction = DenyFn.PermissionDenied := by
  have hfail : ∀ (w : Nat) (req : Request) (s : State),
      (exampleEnv.PCall "server.lua" (some { ref := 0 }) w req s).2 ≠ none := by
    intro w req s
    simp [exampleEnv]
  obtain ⟨st1, x1, x2, x3, hst, -, -, -, -, -, -, -, -, -, -, hslot, hcalls, hserve⟩ :=
    failing_handler_fallback_is_permanent exampleEnv "server.lua" { ref := 0 } [] exampleState []
      7 { ref := 1, path := "/admin/x" } [] 8 { ref := 2, path := "/admin/y" } hfail
  have h1 : st1 = (exampleWorld 0).st := by
    have h := hst
    simp only [DenyHandler, results_zero, ToFunction_function, Except.ok.injEq, Prod.mk.injEq,
      and_true] at h
    rw [← h]
    rfl
  subst h1
  have hs : serve exampleEnv
      [(7, { ref := 1, path := "/admin/x" }), (8, { ref := 2, path := "/admin/y" })]
      (exampleWorld 0) = x3 := hserve
  refine ⟨hfail, ?_, ?_⟩
  · rw [hs, hcalls]
    rfl
  · rw [hs, hslot]

/-- C4, as stated, fails: the Lua function 1 of `reinstallingEnv` always
succeeds, but its run calls `DenyHandler` with the Lua function 0. After
`DenyHandler` installs function 1, the first denied request is answered by it
and leaves the closure over function 0 as the deny function; the second request
runs function 0, which fails, so the default handler is invoked and the deny
function ends as the default handler. -/
theorem succeeding_handler_can_replace_itself :
    (∀ (w : Nat) (req : Request) (s : State),
        (reinstallingEnv.PCall "server.lua" (some { ref := 1 }) w req s).2 = none)
    ∧ DenyHandler "server.lua" [LValue.Function { ref := 1 }] exampleState
        = Except.ok ((exampleWorld 1).st, [])
    ∧ (dispatch reinstallingEnv 7 { ref := 1, path := "/admin/x" }
        (exampleWorld 1)).st.perm.DenyFunction
        = DenyFn.closure "server.lua" (some { ref := 0 })
    ∧ (serve reinstallingEnv
        [(7, { ref := 1, path := "/admin/x" }), (8, { ref := 2, path := "/admin/y" })]
        (exampleWorld 1)).calls
        = [Call.lua "server.lua" (some { ref := 1 }) 7 { ref := 1, path := "/admin/x" },
           Call.lua "server.lua" (some { ref := 0 }) 8 { ref := 2, path := "/admin/y" },
           Call.permissionDenied 8 { ref := 2, path := "/admin/y" }]
    ∧ (serve reinstallingEnv
        [(7, { ref := 1, path := "/admin/x" }), (8, { ref := 2, path := "/admin/y" })]
        (exampleWorld 1)).st.perm.DenyFunction = DenyFn.PermissionDenied
    ∧ (serve reinstallingEnv
        [(7, { ref := 1, path := "/admin/x" }), (8, { ref := 2, path := "/admin/y" })]
        (exampleWorld 1)).st.writers 8 = ["<html>", "403 Permission denied.\n"] := by
  have hok : ∀ (w : Nat) (req : Request) (s : State),
      (reinstallingEnv.PCall "server.lua" (some { ref := 1 }) w req s).2 = none := by
    intro w req s
    simp [reinstallingEnv, DenyHandler]
  have h1 := dispatch_custom reinstallingEnv "server.lua" { ref := 1 } hok 7
    { ref := 1, path := "/admin/x" } (exampleWorld 1) rfl
  have hslot1 : (dispatch reinstallingEnv 7 { ref := 1, path := "/admin/x" }
      (exampleWorld 1)).st.perm.DenyFunction
      = DenyFn.closure "server.lua" (some { ref := 0 }) := by
    rw [h1]
    simp [reinstallingEnv, DenyHandler, ToFunction_function, Permissions.DenyFunction,
      Permissions.SetDenyFunction]
  have hfail2 : (reinstallingEnv.PCall "server.lua" (some { ref := 0 }) 8
      { ref := 2, path := "/admin/y" }
      (dispatch reinstallingEnv 7 { ref := 1, path := "/admin/x" } (exampleWorld 1)).st).2
      = some "attempt to index a nil value" := by
    simp [reinstallingEnv, exampleEnv]
  have h2 := dispatch_closure_err reinstallingEnv "server.lua" (some { ref := 0 }) 8
    { ref := 2, path := "/admin/y" }
    (dispatch reinstallingEnv 7 { ref := 1, path := "/admin/x" } (exampleWorld 1))
    "attempt to index a nil value" hslot1 hfail2
  have hs : serve reinstallingEnv
      [(7, { ref := 1, path := "/admin/x" }), (8, { ref := 2, path := "/admin/y" })]
      (exampleWorld 1)
      = dispatch reinstallingEnv 8 { ref := 2, path := "/admin/y" }
          (dispatch reinstallingEnv 7 { ref := 1, path := "/admin/x" } (exampleWorld 1)) := rfl
  refine ⟨hok, rfl, hslot1, ?_, ?_, ?_⟩
  · rw [hs, h2]
    simp only [callPermissionDenied, h1]
    rfl
  · rw [hs, h2]
    rfl
  · rw [hs, h2]
    simp only [callPermissionDenied, logPrintln, Function.update_same, h1]
    simp [reinstallingEnv, exampleEnv, exampleWorld, exampleState, DenyHandler,
      Permissions.SetDenyFunction]

/-- C4, amended: `DenyHandler(f)` with a Lua function `f` whose call always
succeeds and whose run does not itself replace the deny function, then any
sequence `reqs` of denied requests and one more `(w, req)`. After every such
sequence the deny function is still the closure over `f`; the next request is
answered by the run of `f` alone (the world after it is the state that run
leaves, with that one invocation recorded), and after it the deny function is
again unchanged; over the whole sequence only `f` is invoked, once for each
request, and never the default handler. -/
theorem succeeding_handler_stays_installed (env : Env) (filename : String) (f : LFunction)
    (rest : List LValue) (st : State) (calls0 : List Call)
    (reqs : List (Nat × Request)) (w : Nat) (req : Request)
    (hok : ∀ w req s, (env.PCall filename (some f) w req s).2 = none)
    (hkeep : ∀ w req s, s.perm.DenyFunction = DenyFn.closure filename (some f) →
      (env.PCall filename (some f) w req s).1.perm.DenyFunction
        = DenyFn.closure filename (some f)) :
    ∃ (st1 : State) (x1 x2 : World),
      DenyHandler filename (LValue.Function f :: rest) st = Except.ok (st1, [])
      ∧ st1.perm.DenyFunction = DenyFn.closure filename (some f)
      ∧ x1 = serve env reqs { st := st1, calls := calls0 }
      ∧ x2 = dispatch env w req x1
      ∧ x1.st.perm.DenyFunction = DenyFn.closure filename (some f)
      ∧ x1.calls = calls0 ++ reqs.map (fun p => Call.lua filename (some f) p.1 p.2)
      ∧ x2 = { st := (env.PCall filename (some f) w req x1.st).1,
               calls := x1.calls ++ [Call.lua filename (some f) w req] }
      ∧ x2.st.perm.DenyFunction = DenyFn.closure filename (some f)
      ∧ (∀ w2 req2, Call.permissionDenied w2 req2 ∉ x2.calls.drop calls0.length)
      ∧ serve env (reqs ++ [(w, req)]) { st := st1, calls := calls0 } = x2 := by
  have hst : DenyHandler filename (LValue.Function f :: rest) st
      = Except.ok ({ st with perm := st.perm.SetDenyFunction (DenyFn.closure filename (some f)) },
          []) := by
    simp only [DenyHandler, results_zero, ToFunction_function]
  obtain ⟨h1slot, h1calls⟩ := serve_custom env filename f hok hkeep reqs
    { st := { st with perm := st.perm.SetDenyFunction (DenyFn.closure filename (some f)) },
      calls := calls0 } rfl
  have h2 := dispatch_custom env filename f hok w req _ h1slot
  refine ⟨_, _, _, hst, rfl, rfl, rfl, h1slot, h1calls, h2, ?_, ?_, ?_⟩
  · rw [h2]
    exact hkeep w req _ h1slot
  · intro w2 req2
    rw [h2]
    simp only [h1calls, List.append_assoc, List.drop_left, List.mem_append, List.mem_map,
      List.mem_singleton]
    rintro (⟨p, -, hp⟩ | hp) <;> exact Call.noConfusion hp
  · rw [serve_append]
    rfl

/-- Witness of C4's theorem: the Lua function 1 of `exampleEnv` always succeeds
and leaves the deny function alone. After `DenyHandler` installs it, requests on
writers 7 and 8 are both answered by it, and it is still installed. -/
theorem succeeding_handler_stays_installed_witness :
    (∀ (w : Nat) (req : Request) (s : State),
        (exampleEnv.PCall "server.lua" (some { ref := 1 }) w req s).2 = none)
    ∧ (∀ (w : Nat) (req : Request) (s : State),
        s.perm.DenyFunction = DenyFn.closure "server.lua" (some { ref := 1 }) →
        (exampleEnv.PCall "server.lua" (some { ref := 1 }) w req s).1.perm.DenyFunction
          = DenyFn.closure "server.lua" (some { ref := 1 }))
    ∧ (serve exampleEnv [(7, { ref := 1, path := "/admin/x" }), (8, { ref := 2, path := "/admin/y" })]
        (exampleWorld 1)).calls
        = [Call.lua "server.lua" (some { ref := 1 }) 7 { ref := 1, path := "/admin/x" },
           Call.lua "server.lua" (some { ref := 1 }) 8 { ref := 2, path := "/admin/y" }]
    ∧ (serve exampleEnv [(7, { ref := 1, path := "/admin/x" }), (8, { ref := 2, path := "/admin/y" })]
        (exampleWorld 1)).st.perm.DenyFunction
        = DenyFn.closure "server.lua" (some { ref := 1 }) := by
  have hok : ∀ (w : Nat) (req : Request) (s : State),
      (exampleEnv.PCall "server.lua" (some { ref := 1 }) w req s).2 = none := by
    intro w req s
    simp [exampleEnv]
  have hkeep : ∀ (w : Nat) (req : Request) (s : State),
      s.perm.DenyFunction = DenyFn.closure "server.lua" (some { ref := 1 }) →
      (exampleEnv.PCall "server.lua" (some { ref := 1 }) w req s).1.perm.DenyFunction
        = DenyFn.closure "server.lua" (some { ref := 1 }) := by
    intro w req s h
    simpa [exampleEnv] using h
  obtain ⟨st1, x1, x2, hst, -, hx1, -, -, hcalls, hx2, hslot, -, hserve⟩ :=
    succeeding_handler_stays_installed exampleEnv "server.lua" { ref := 1 } [] exampleState []
      [(7, { ref := 1, path := "/admin/x" })] 8 { ref := 2, path := "/admin/y" } hok hkeep
  have h1 : st1 = (exampleWorld 1).st := by
    have h := hst
    simp only [DenyHandler, results_zero, ToFunction_function, Except.ok.injEq, Prod.mk.injEq,
      and_true] at h
    rw [← h]
    rfl
  subst h1
  have hs : serve exampleEnv
      [(7, { ref := 1, path := "/admin/x" }), (8, { ref := 2, path := "/admin/y" })]
      (exampleWorld 1) = x2 := hserve
  refine ⟨hok, hkeep, ?_, ?_⟩
  · rw [hs, hx2]
    simp only [hcalls]
    rfl
  · rw [hs, hslot]

end Algernon
